import Mathlib

/- Shallow embedding of flair's learning-rate annealing controllers
   (src/flair/training_utils.py: AnnealOnPlateau, and src/flair/optim.py:
   ExpAnnealLR, ReduceLRWDOnPlateau).  Python floats are modelled as exact
   rationals extended with the two infinities produced by math.inf; IEEE
   rounding and NaN are outside the model. -/

/-- Python float values relevant to the controller: finite values (modelled
exactly as rationals) plus the two infinities used to initialise the best
score (`mode_worse` is `inf` in min mode and `-inf` in max mode). -/
inductive PyFloat where
  | val : ℚ → PyFloat
  | inf : PyFloat
  | ninf : PyFloat
deriving DecidableEq, Repr

namespace PyFloat

/-- Python strict `<` on floats (NaN is excluded from the model). -/
def lt : PyFloat → PyFloat → Bool
  | ninf, ninf => false
  | ninf, _ => true
  | _, ninf => false
  | inf, _ => false
  | val _, inf => true
  | val a, val b => decide (a < b)

/-- Python truthiness of a float: zero is falsy, every other value truthy. -/
def truthy : PyFloat → Bool
  | val q => decide (q ≠ 0)
  | inf => true
  | ninf => true

end PyFloat

/-- The error `AnnealOnPlateau.step` can raise on float-valued inputs: the
tie-break branch compares the incoming auxiliary float against
`self.best_aux`, which is still `None` before any improvement stored an
auxiliary value; in Python `float < None` raises a TypeError. -/
inductive StepErr where
  | typeErr : StepErr
deriving DecidableEq, Repr

/-- Decidable equality for `Except` results, so that concrete runs of the
embedded controller can be checked by `decide`. -/
instance {ε α : Type} [DecidableEq ε] [DecidableEq α] : DecidableEq (Except ε α) :=
  fun a b =>
  match a, b with
  | Except.ok x, Except.ok y =>
    if h : x = y then Decidable.isTrue (congrArg Except.ok h)
    else Decidable.isFalse (fun hc => h (Except.ok.inj hc))
  | Except.error x, Except.error y =>
    if h : x = y then Decidable.isTrue (congrArg Except.error h)
    else Decidable.isFalse (fun hc => h (Except.error.inj hc))
  | Except.ok _, Except.error _ => Decidable.isFalse (fun hc => Except.noConfusion hc)
  | Except.error _, Except.ok _ => Decidable.isFalse (fun hc => Except.noConfusion hc)

/-- The attribute state of `AnnealOnPlateau`: every field of `self.__dict__`
except the attached `optimizer` handle.  The learning rates of the
optimizer's parameter groups are threaded separately through `step`, since
they live in the externally owned optimizer.  `last_lr` models `_last_lr`,
which is absent (`none`) until the first `step` call sets it. -/
structure AnnealState where
  factor : ℚ
  min_lrs : List ℚ
  default_patience : ℤ
  effective_patience : ℤ
  verbose : Bool
  cooldown : ℤ
  cooldown_counter : ℤ
  mode : String
  aux_mode : String
  best : PyFloat
  best_aux : Option PyFloat
  num_bad_epochs : ℤ
  mode_worse : PyFloat
  eps : ℚ
  last_epoch : ℤ
  last_lr : Option (List ℚ)
deriving DecidableEq, Repr

/-- The `min_lr` constructor argument of `AnnealOnPlateau`: a scalar
broadcast to every parameter group, or an explicit per-group list. -/
inductive MinLrArg where
  | scalar : ℚ → MinLrArg
  | ofList : List ℚ → MinLrArg
deriving DecidableEq, Repr

namespace AnnealOnPlateau

/-- Source `AnnealOnPlateau._init_is_better` (training_utils.py lines
328-337): rejects a mode other than "min"/"max" and returns the worst value
for the chosen mode. -/
def init_is_better (mode : String) : Except String PyFloat :=
  if mode ≠ "min" ∧ mode ≠ "max" then Except.error ("mode " ++ mode ++ " is unknown!")
  else if mode = "min" then Except.ok PyFloat.inf
  else Except.ok PyFloat.ninf

/-- Source `AnnealOnPlateau.__init__` (training_utils.py lines 215-258),
for an optimizer handle whose parameter groups carry the given learning
rates.  Checks appear in source order: `factor >= 1.0` is rejected, a
`min_lr` list of the wrong length is rejected, and `_init_is_better`
rejects an unknown mode; no other argument is validated. -/
def init (param_group_lrs : List ℚ) (mode aux_mode : String) (factor : ℚ)
    (patience initial_extra_patience : ℤ) (verbose : Bool) (cooldown : ℤ)
    (min_lr : MinLrArg) (eps : ℚ) : Except String AnnealState :=
  if factor ≥ 1 then Except.error "Factor should be < 1.0."
  else
    match (match min_lr with
           | MinLrArg.scalar q => Except.ok (List.replicate param_group_lrs.length q)
           | MinLrArg.ofList qs =>
             if qs.length ≠ param_group_lrs.length then Except.error "expected min_lrs"
             else Except.ok qs : Except String (List ℚ)) with
    | Except.error e => Except.error e
    | Except.ok mls =>
      match init_is_better mode with
      | Except.error e => Except.error e
      | Except.ok mw =>
        Except.ok { factor := factor, min_lrs := mls, default_patience := patience,
                    effective_patience := patience + initial_extra_patience,
                    verbose := verbose, cooldown := cooldown, cooldown_counter := 0,
                    mode := mode, aux_mode := aux_mode, best := mw, best_aux := none,
                    num_bad_epochs := 0, mode_worse := mw, eps := eps,
                    last_epoch := 0, last_lr := none }

/-- Source `AnnealOnPlateau._reduce_lr` (training_utils.py lines 315-322):
for each parameter group, `new_lr = max(old_lr * factor, min_lrs[i])` is
written only when `old_lr - new_lr > eps`.  The lists are paired
positionally; the constructor guarantees they have equal length. -/
def reduce_lr (factor eps : ℚ) : List ℚ → List ℚ → List ℚ
  | [], _ => []
  | old_lr :: ls, [] => old_lr :: ls
  | old_lr :: ls, ml :: mls =>
      (let new_lr := max (old_lr * factor) ml
       if old_lr - new_lr > eps then new_lr else old_lr) :: reduce_lr factor eps ls mls

/-- The `is_better` computation inside `step` (training_utils.py lines
272-290): the primary strict comparison under `mode`, then the tie-break on
an exact primary tie with a truthy auxiliary metric.  When the tie-break
fires while `best_aux` is still `None`, Python raises a TypeError from the
`float < None` comparison. -/
def isBetterCheck (s : AnnealState) (current : PyFloat) (aux : Option PyFloat) :
    Except StepErr Bool :=
  let isb := (decide (s.mode = "min") && PyFloat.lt current s.best) ||
             (decide (s.mode = "max") && PyFloat.lt s.best current)
  match aux with
  | none => Except.ok isb
  | some a =>
    if current = s.best ∧ a.truthy = true then
      if s.aux_mode = "min" then
        match s.best_aux with
        | none => Except.error StepErr.typeErr
        | some b => Except.ok (isb || a.lt b)
      else if s.aux_mode = "max" then
        match s.best_aux with
        | none => Except.error StepErr.typeErr
        | some b => Except.ok (isb || b.lt a)
      else Except.ok isb
    else Except.ok isb

/-- The remainder of `step` (training_utils.py lines 292-313) once the
`is_better` flag has been computed: update best/best_aux, count or reset
bad epochs, apply cooldown suppression, and fire `_reduce_lr` when
`num_bad_epochs > effective_patience`. -/
def stepCore (s : AnnealState) (lrs : List ℚ) (metric : PyFloat)
    (auxiliary_metric : Option PyFloat) (is_better : Bool) :
    Bool × AnnealState × List ℚ :=
  let epoch := s.last_epoch + 1
    let best' := if is_better then metric else s.best
    let best_aux' := if is_better then
        (match auxiliary_metric with
         | some a => if a.truthy then some a else s.best_aux
         | none => s.best_aux)
      else s.best_aux
    let bad1 : ℤ := if is_better then 0 else s.num_bad_epochs + 1
    let cc1 : ℤ := if s.cooldown_counter > 0 then s.cooldown_counter - 1 else s.cooldown_counter
    let bad2 : ℤ := if s.cooldown_counter > 0 then 0 else bad1
    if bad2 > s.effective_patience then
      let lrs' := reduce_lr s.factor s.eps lrs s.min_lrs
      (true,
        { s with
          last_epoch := epoch, best := best', best_aux := best_aux',
          num_bad_epochs := 0, cooldown_counter := s.cooldown,
          effective_patience := s.default_patience, last_lr := some lrs' },
        lrs')
    else
      (false,
        { s with
          last_epoch := epoch, best := best', best_aux := best_aux',
          num_bad_epochs := bad2, cooldown_counter := cc1, last_lr := some lrs },
        lrs)

/-- Source `AnnealOnPlateau.step` (training_utils.py lines 266-313), acting
on the state and the parameter-group learning rates.  Returns the
`reduce_learning_rate` flag together with the updated state and rates, or
the TypeError the tie-break path can raise. -/
def step (s : AnnealState) (lrs : List ℚ) (metric : PyFloat)
    (auxiliary_metric : Option PyFloat) :
    Except StepErr (Bool × AnnealState × List ℚ) :=
  match isBetterCheck s metric auxiliary_metric with
  | Except.error e => Except.error e
  | Except.ok is_better => Except.ok (stepCore s lrs metric auxiliary_metric is_better)

/-- Iterate `step` over a sequence of (primary, auxiliary) metric pairs,
collecting the returned flags; an exception aborts the run. -/
def runSteps : AnnealState → List ℚ → List (PyFloat × Option PyFloat) →
    Except StepErr (List Bool × AnnealState × List ℚ)
  | s, lrs, [] => Except.ok ([], s, lrs)
  | s, lrs, (m, aux) :: rest =>
    match step s lrs m aux with
    | Except.error e => Except.error e
    | Except.ok (r, s', lrs') =>
      match runSteps s' lrs' rest with
      | Except.error e => Except.error e
      | Except.ok (rs, s'', lrs'') => Except.ok (r :: rs, s'', lrs'')

/-- Source `AnnealOnPlateau.state_dict` (training_utils.py lines 339-340):
every attribute except the optimizer handle.  The Lean state already
excludes the optimizer, so the exported dictionary is the whole record. -/
def state_dict (s : AnnealState) : AnnealState := s

/-- Source `AnnealOnPlateau.load_state_dict` (training_utils.py lines
342-344): `self.__dict__.update(state_dict)` overwrites every attribute
with the stored one (the receiver `_self` only contributes the optimizer
handle, which the Lean state does not carry), then `_init_is_better`
revalidates the mode and recomputes `mode_worse`. -/
def load_state_dict (_self : AnnealState) (sd : AnnealState) : Except String AnnealState :=
  match init_is_better sd.mode with
  | Except.error e => Except.error e
  | Except.ok mw => Except.ok { sd with mode_worse := mw }

end AnnealOnPlateau

namespace ExpAnnealLR

/-- Source `ExpAnnealLR.get_lr` (optim.py lines 158-161): with
`iteration = last_epoch + 1` and `pct = iteration / iterations`, each base
learning rate is annealed to `base_lr * (end_lr / base_lr) ** pct`.  The
float power is modelled by real exponentiation. -/
noncomputable def get_lr (end_lr : ℝ) (iterations : ℕ) (base_lrs : List ℝ)
    (last_epoch : ℤ) : List ℝ :=
  base_lrs.map (fun base_lr =>
    base_lr * (end_lr / base_lr) ^ (((last_epoch : ℝ) + 1) / (iterations : ℝ)))

end ExpAnnealLR

/-- A parameter group as `ReduceLRWDOnPlateau` sees it: the two numeric
fields the scheduler reads and writes. -/
structure ParamGroup where
  lr : ℚ
  weight_decay : ℚ
deriving DecidableEq, Repr

/-- The state of `ReduceLRWDOnPlateau` used by its overridden `step` and by
`_reduce_weight_decay`.  All remaining plateau machinery (`is_better` with
its threshold logic, `_reduce_lr`, the constructor) is inherited from
torch's `ReduceLROnPlateau`, an external library class that is not part of
this repository; those two inherited callees therefore enter `step` below
as parameters. -/
structure RLWDState where
  factor : ℚ
  min_lrs : List ℚ
  patience : ℤ
  cooldown : ℤ
  cooldown_counter : ℤ
  best : PyFloat
  num_bad_epochs : ℤ
  eps : ℚ
  last_epoch : ℤ
deriving DecidableEq, Repr

namespace ReduceLRWDOnPlateau

/-- Write a list of new learning rates back into the parameter groups
position by position, leaving `weight_decay` untouched (torch's inherited
`_reduce_lr` only ever assigns `param_group["lr"]`). -/
def applyLr : List ℚ → List ParamGroup → List ParamGroup
  | _, [] => []
  | [], g :: gs => g :: gs
  | l :: ls, g :: gs => { g with lr := l } :: applyLr ls gs

/-- Source `ReduceLRWDOnPlateau._reduce_weight_decay` (optim.py lines
271-279): for every parameter group whose `weight_decay` is non-zero,
`new_weight_decay = max(old * factor, min_lrs[i])` is written only when
`old - new > eps`.  Groups are paired positionally with `min_lrs`; the
inherited constructor guarantees equal lengths. -/
def reduce_weight_decay (factor eps : ℚ) : List ℚ → List ParamGroup → List ParamGroup
  | _, [] => []
  | [], g :: gs => g :: gs
  | ml :: mls, g :: gs =>
      (if g.weight_decay ≠ 0 then
        (let old_wd := g.weight_decay
         let new_wd := max (old_wd * factor) ml
         if old_wd - new_wd > eps then { g with weight_decay := new_wd } else g)
       else g) :: reduce_weight_decay factor eps mls gs

/-- Source `ReduceLRWDOnPlateau.step` (optim.py lines 249-269) with
`epoch=None`.  `is_better` and `base_reduce_lr` are the two callees
inherited from torch's `ReduceLROnPlateau` (external to this repository).
The first component of the result models the Python return value: the
source body contains no return statement, so every call returns `None` —
hence the constant `none`. -/
def step (is_better : PyFloat → PyFloat → Bool) (base_reduce_lr : List ℚ → List ℚ)
    (s : RLWDState) (groups : List ParamGroup) (metric : PyFloat) :
    Option Bool × RLWDState × List ParamGroup :=
  let current := metric
  let epoch := s.last_epoch + 1
  let best' := if is_better current s.best then current else s.best
  let bad1 : ℤ := if is_better current s.best then 0 else s.num_bad_epochs + 1
  let cc1 : ℤ := if s.cooldown_counter > 0 then s.cooldown_counter - 1 else s.cooldown_counter
  let bad2 : ℤ := if s.cooldown_counter > 0 then 0 else bad1
  if bad2 > s.patience then
    let groups1 := applyLr (base_reduce_lr (groups.map ParamGroup.lr)) groups
    let groups2 := reduce_weight_decay s.factor s.eps s.min_lrs groups1
    (none,
      { s with
        last_epoch := epoch, best := best', num_bad_epochs := 0,
        cooldown_counter := s.cooldown },
      groups2)
  else
    (none,
      { s with
        last_epoch := epoch, best := best', num_bad_epochs := bad2,
        cooldown_counter := cc1 },
      groups)

end ReduceLRWDOnPlateau

/-- A metric that does not improve on `best` under the given primary mode:
not strictly smaller in "min" mode, not strictly larger in "max" mode. -/
def nonImproving (mode : String) (best m : PyFloat) : Prop :=
  (mode = "min" → PyFloat.lt m best = false) ∧ (mode = "max" → PyFloat.lt best m = false)

instance (mode : String) (best m : PyFloat) : Decidable (nonImproving mode best m) := by
  unfold nonImproving
  infer_instance

/-- A controller state produced by the public API: some constructor call
followed by some sequence of successful `step` calls. -/
def AnnealOnPlateau.Reachable (s : AnnealState) : Prop :=
  ∃ (lrs0 : List ℚ) (mode aux_mode : String) (factor : ℚ) (patience extra : ℤ)
    (verbose : Bool) (cooldown : ℤ) (min_lr : MinLrArg) (eps : ℚ)
    (ms : List (PyFloat × Option PyFloat)) (s0 : AnnealState) (rs : List Bool)
    (lrs' : List ℚ),
    AnnealOnPlateau.init lrs0 mode aux_mode factor patience extra verbose cooldown
        min_lr eps = Except.ok s0 ∧
    AnnealOnPlateau.runSteps s0 lrs0 ms = Except.ok (rs, s, lrs')

/-- Concrete state for the C1 witness: best already established at 1, no
bad epochs yet, effective patience 1, no cooldown. -/
def c1s : AnnealState :=
  { factor := 1/2, min_lrs := [0], default_patience := 1, effective_patience := 1,
    verbose := false, cooldown := 0, cooldown_counter := 0, mode := "min",
    aux_mode := "min", best := PyFloat.val 1, best_aux := none, num_bad_epochs := 0,
    mode_worse := PyFloat.inf, eps := 1/100000000, last_epoch := 1, last_lr := some [1] }

/-- Concrete state for the C2 witness: best 1 with stored auxiliary 2,
three bad epochs pending. -/
def c2s : AnnealState :=
  { factor := 1/2, min_lrs := [0], default_patience := 10, effective_patience := 10,
    verbose := false, cooldown := 0, cooldown_counter := 0, mode := "min",
    aux_mode := "min", best := PyFloat.val 1, best_aux := some (PyFloat.val 2),
    num_bad_epochs := 3, mode_worse := PyFloat.inf, eps := 1/100000000,
    last_epoch := 5, last_lr := none }

/-- State returned by the C3 constructor call (patience -1, cooldown 2). -/
def c3s0 : AnnealState :=
  { factor := 1/10, min_lrs := [0], default_patience := -1, effective_patience := -1,
    verbose := false, cooldown := 2, cooldown_counter := 0, mode := "min",
    aux_mode := "min", best := PyFloat.inf, best_aux := none, num_bad_epochs := 0,
    mode_worse := PyFloat.inf, eps := 1/100000000, last_epoch := 0, last_lr := none }

/-- C3 state after the first step: a reduction fired and started cooldown. -/
def c3s1 : AnnealState :=
  { c3s0 with
    best := PyFloat.val 5, cooldown_counter := 2, last_epoch := 1,
    last_lr := some [1/10] }

/-- C3 state after the second step: although the call began with
`cooldown_counter = 2`, the reduction that fired during cooldown reset the
counter back to 2 instead of leaving the decrement in place. -/
def c3s2 : AnnealState :=
  { c3s1 with last_epoch := 2, last_lr := some [1/100] }

/-- Concrete state for the C3 amended-claim witness: in cooldown with a
non-negative effective patience. -/
def c3w : AnnealState :=
  { factor := 1/2, min_lrs := [0], default_patience := 2, effective_patience := 2,
    verbose := false, cooldown := 2, cooldown_counter := 2, mode := "min",
    aux_mode := "min", best := PyFloat.val 1, best_aux := none, num_bad_epochs := 0,
    mode_worse := PyFloat.inf, eps := 1/100000000, last_epoch := 3, last_lr := some [1] }

/-- The state after one non-improving `step` call on `c3w`. -/
def c3w1 : AnnealState :=
  { c3w with last_epoch := 4, num_bad_epochs := 0, cooldown_counter := 1 }

/-- State returned by the C4 witness constructor call. -/
def c4s0 : AnnealState :=
  { factor := 1/10, min_lrs := [0], default_patience := 3, effective_patience := 5,
    verbose := false, cooldown := 0, cooldown_counter := 0, mode := "min",
    aux_mode := "min", best := PyFloat.inf, best_aux := none, num_bad_epochs := 0,
    mode_worse := PyFloat.inf, eps := 1/100000000, last_epoch := 0, last_lr := none }

/-- State returned by the C5 witness constructor call. -/
def c5s0 : AnnealState :=
  { factor := 1/10, min_lrs := [0], default_patience := 10, effective_patience := 10,
    verbose := false, cooldown := 0, cooldown_counter := 0, mode := "min",
    aux_mode := "min", best := PyFloat.inf, best_aux := none, num_bad_epochs := 0,
    mode_worse := PyFloat.inf, eps := 1/100000000, last_epoch := 0, last_lr := none }

/-- State returned by the C7 constructor call: `best_aux` is still `None`. -/
def c7s0 : AnnealState :=
  { factor := 1/10, min_lrs := [0], default_patience := 10, effective_patience := 10,
    verbose := false, cooldown := 0, cooldown_counter := 0, mode := "min",
    aux_mode := "min", best := PyFloat.inf, best_aux := none, num_bad_epochs := 0,
    mode_worse := PyFloat.inf, eps := 1/100000000, last_epoch := 0, last_lr := none }

/-- Concrete `ReduceLRWDOnPlateau` state for the C8 counterexample. -/
def c8rs : RLWDState :=
  { factor := 1/10, min_lrs := [0], patience := 10, cooldown := 0, cooldown_counter := 0,
    best := PyFloat.inf, num_bad_epochs := 0, eps := 1/100000000, last_epoch := 0 }

/-- Concrete `AnnealOnPlateau` state for the C8 counterexample, in the
same situation as `c8rs`. -/
def c8as : AnnealState :=
  { factor := 1/10, min_lrs := [0], default_patience := 10, effective_patience := 10,
    verbose := false, cooldown := 0, cooldown_counter := 0, mode := "min",
    aux_mode := "min", best := PyFloat.inf, best_aux := none, num_bad_epochs := 0,
    mode_worse := PyFloat.inf, eps := 1/100000000, last_epoch := 0, last_lr := none }

/-- C8 comparison state after one `AnnealOnPlateau.step` call. -/
def c8as1 : AnnealState :=
  { c8as with best := PyFloat.val 5, last_epoch := 1, last_lr := some [1] }

/-- State returned by the C10 constructor call: `min_lr = 5` above the
current rate 1, and a negative `eps = -10`. -/
def c10s0 : AnnealState :=
  { factor := 1/10, min_lrs := [5], default_patience := 0, effective_patience := 0,
    verbose := false, cooldown := 0, cooldown_counter := 0, mode := "min",
    aux_mode := "min", best := PyFloat.inf, best_aux := none, num_bad_epochs := 0,
    mode_worse := PyFloat.inf, eps := -10, last_epoch := 0, last_lr := none }

/-- C10 state after the first (improving) step. -/
def c10s1 : AnnealState :=
  { c10s0 with best := PyFloat.val 5, last_epoch := 1, last_lr := some [1] }

/-- C10 state after the second step, whose reduction raised the learning
rate from 1 up to the floor 5. -/
def c10s2 : AnnealState :=
  { c10s1 with last_epoch := 2, last_lr := some [5] }

/-- Fresh state for the C10 amended-claim witness (eps = 1e-8 >= 0). -/
def c10w0 : AnnealState :=
  { factor := 1/2, min_lrs := [0], default_patience := 10, effective_patience := 10,
    verbose := false, cooldown := 0, cooldown_counter := 0, mode := "min",
    aux_mode := "min", best := PyFloat.inf, best_aux := none, num_bad_epochs := 0,
    mode_worse := PyFloat.inf, eps := 1/100000000, last_epoch := 0, last_lr := none }

/-- The state after one improving `step` call on `c10w0`. -/
def c10w1 : AnnealState :=
  { c10w0 with best := PyFloat.val 5, last_epoch := 1, last_lr := some [1] }

theorem PyFloat.lt_irrefl (x : PyFloat) : x.lt x = false := by
  cases x <;> simp [PyFloat.lt]

section RatDecide

set_option allowUnsafeReducibility true

-- Batteries marks the Rat field operations irreducible; the kernel ignores
-- reducibility, and concrete controller runs below are checked by decide,
-- so the operations are restored to the default status within this section.
attribute [local semireducible] Rat.mul Rat.add Rat.sub Rat.inv

namespace AnnealOnPlateau

theorem step_eq_ok {s : AnnealState} {lrs : List ℚ} {metric : PyFloat}
    {aux : Option PyFloat} {ib : Bool}
    (h : isBetterCheck s metric aux = Except.ok ib) :
    step s lrs metric aux = Except.ok (stepCore s lrs metric aux ib) := by
  unfold step
  rw [h]

theorem step_ok_inv {s : AnnealState} {lrs : List ℚ} {metric : PyFloat}
    {aux : Option PyFloat} {out : Bool × AnnealState × List ℚ}
    (h : step s lrs metric aux = Except.ok out) :
    ∃ ib, isBetterCheck s metric aux = Except.ok ib ∧ out = stepCore s lrs metric aux ib := by
  unfold step at h
  cases hib : isBetterCheck s metric aux with
  | error e => rw [hib] at h; exact absurd h (by simp)
  | ok ib =>
    rw [hib] at h
    injection h with h
    exact ⟨ib, rfl, h.symm⟩

theorem stepCore_eq (s : AnnealState) (lrs : List ℚ) (metric : PyFloat)
    (aux : Option PyFloat) (ib : Bool) :
    stepCore s lrs metric aux ib =
      (if (if s.cooldown_counter > 0 then (0 : ℤ)
           else if ib = true then 0 else s.num_bad_epochs + 1) > s.effective_patience
       then
        (true,
          { s with
            last_epoch := s.last_epoch + 1,
            best := if ib = true then metric else s.best,
            best_aux := if ib = true then
                (match aux with
                 | some a => if a.truthy = true then some a else s.best_aux
                 | none => s.best_aux)
              else s.best_aux,
            num_bad_epochs := 0, cooldown_counter := s.cooldown,
            effective_patience := s.default_patience,
            last_lr := some (reduce_lr s.factor s.eps lrs s.min_lrs) },
          reduce_lr s.factor s.eps lrs s.min_lrs)
       else
        (false,
          { s with
            last_epoch := s.last_epoch + 1,
            best := if ib = true then metric else s.best,
            best_aux := if ib = true then
                (match aux with
                 | some a => if a.truthy = true then some a else s.best_aux
                 | none => s.best_aux)
              else s.best_aux,
            num_bad_epochs := if s.cooldown_counter > 0 then (0 : ℤ)
              else if ib = true then 0 else s.num_bad_epochs + 1,
            cooldown_counter := if s.cooldown_counter > 0 then s.cooldown_counter - 1
              else s.cooldown_counter,
            last_lr := some lrs },
          lrs)) := rfl

theorem stepCore_preserved (s : AnnealState) (lrs : List ℚ) (metric : PyFloat)
    (aux : Option PyFloat) (ib : Bool) :
    ((stepCore s lrs metric aux ib).2.1).mode = s.mode ∧
    ((stepCore s lrs metric aux ib).2.1).mode_worse = s.mode_worse ∧
    ((stepCore s lrs metric aux ib).2.1).factor = s.factor ∧
    ((stepCore s lrs metric aux ib).2.1).eps = s.eps ∧
    ((stepCore s lrs metric aux ib).2.1).min_lrs = s.min_lrs ∧
    ((stepCore s lrs metric aux ib).2.1).default_patience = s.default_patience ∧
    ((stepCore s lrs metric aux ib).2.1).cooldown = s.cooldown ∧
    ((stepCore s lrs metric aux ib).2.1).aux_mode = s.aux_mode ∧
    ((stepCore s lrs metric aux ib).2.1).verbose = s.verbose := by
  rw [stepCore_eq]
  by_cases h : (if s.cooldown_counter > 0 then (0 : ℤ)
      else if ib = true then 0 else s.num_bad_epochs + 1) > s.effective_patience
  · simp [h]
  · simp [h]

theorem stepCore_eff (s : AnnealState) (lrs : List ℚ) (metric : PyFloat)
    (aux : Option PyFloat) (ib : Bool) :
    ((stepCore s lrs metric aux ib).2.1).effective_patience =
      (if (stepCore s lrs metric aux ib).1 then s.default_patience
       else s.effective_patience) := by
  rw [stepCore_eq]
  by_cases h : (if s.cooldown_counter > 0 then (0 : ℤ)
      else if ib = true then 0 else s.num_bad_epochs + 1) > s.effective_patience
  · simp [h]
  · simp [h]

theorem stepCore_lrs (s : AnnealState) (lrs : List ℚ) (metric : PyFloat)
    (aux : Option PyFloat) (ib : Bool) :
    (stepCore s lrs metric aux ib).2.2 = lrs ∨
    (stepCore s lrs metric aux ib).2.2 = reduce_lr s.factor s.eps lrs s.min_lrs := by
  rw [stepCore_eq]
  by_cases h : (if s.cooldown_counter > 0 then (0 : ℤ)
      else if ib = true then 0 else s.num_bad_epochs + 1) > s.effective_patience
  · simp [h]
  · simp [h]

theorem runSteps_cons_eq {s : AnnealState} {lrs : List ℚ} {m : PyFloat}
    {aux : Option PyFloat} {rest : List (PyFloat × Option PyFloat)}
    {r : Bool} {s' : AnnealState} {lrs' : List ℚ} {rs : List Bool}
    {s'' : AnnealState} {lrs'' : List ℚ}
    (h1 : step s lrs m aux = Except.ok (r, s', lrs'))
    (h2 : runSteps s' lrs' rest = Except.ok (rs, s'', lrs'')) :
    runSteps s lrs ((m, aux) :: rest) = Except.ok (r :: rs, s'', lrs'') := by
  simp only [runSteps, h1, h2]

theorem runSteps_cons_inv {s : AnnealState} {lrs : List ℚ} {m : PyFloat}
    {aux : Option PyFloat} {rest : List (PyFloat × Option PyFloat)}
    {rsAll : List Bool} {sF : AnnealState} {lF : List ℚ}
    (h : runSteps s lrs ((m, aux) :: rest) = Except.ok (rsAll, sF, lF)) :
    ∃ r s' lrs' rs, step s lrs m aux = Except.ok (r, s', lrs') ∧
      runSteps s' lrs' rest = Except.ok (rs, sF, lF) ∧ rsAll = r :: rs := by
  simp only [runSteps] at h
  cases hs : step s lrs m aux with
  | error e => simp [hs] at h
  | ok out =>
    obtain ⟨r, s', lrs'⟩ := out
    simp only [hs] at h
    cases hr : runSteps s' lrs' rest with
    | error e => simp [hr] at h
    | ok out2 =>
      obtain ⟨rs, s'', lrs''⟩ := out2
      simp only [hr] at h
      injection h with h
      injection h with hA h
      injection h with hB hC
      subst hA; subst hB; subst hC
      exact ⟨r, s', lrs', rs, rfl, hr, rfl⟩

theorem isBetterCheck_none (s : AnnealState) (metric : PyFloat) :
    isBetterCheck s metric none =
      Except.ok ((decide (s.mode = "min") && PyFloat.lt metric s.best) ||
                 (decide (s.mode = "max") && PyFloat.lt s.best metric)) := rfl

theorem min_eq_max_decide : (decide (("min" : String) = "max")) = false := by decide

theorem max_eq_min_decide : (decide (("max" : String) = "min")) = false := by decide

theorem isBetterCheck_nonImproving {s : AnnealState} {m : PyFloat}
    (hmode : s.mode = "min" ∨ s.mode = "max")
    (hni : nonImproving s.mode s.best m) :
    isBetterCheck s m none = Except.ok false := by
  rw [isBetterCheck_none]
  rcases hmode with h | h
  · have h1 := hni.1 h
    rw [h, h1, min_eq_max_decide]
    simp
  · have h1 := hni.2 h
    rw [h, h1, max_eq_min_decide]
    simp

theorem step_nonImproving_le (s : AnnealState) (lrs : List ℚ) (m : PyFloat)
    (hmode : s.mode = "min" ∨ s.mode = "max")
    (hni : nonImproving s.mode s.best m)
    (hcc : s.cooldown_counter = 0)
    (hle : s.num_bad_epochs + 1 ≤ s.effective_patience) :
    step s lrs m none = Except.ok (false,
      { s with
        last_epoch := s.last_epoch + 1, num_bad_epochs := s.num_bad_epochs + 1,
        last_lr := some lrs },
      lrs) := by
  rw [step_eq_ok (isBetterCheck_nonImproving hmode hni), stepCore_eq]
  have hcond : ¬ ((if s.cooldown_counter > 0 then (0 : ℤ)
      else if (false : Bool) = true then 0 else s.num_bad_epochs + 1) >
        s.effective_patience) := by
    rw [hcc]
    simp
    omega
  rw [if_neg hcond]
  simp [hcc]

theorem step_nonImproving_reduce (s : AnnealState) (lrs : List ℚ) (m : PyFloat)
    (hmode : s.mode = "min" ∨ s.mode = "max")
    (hni : nonImproving s.mode s.best m)
    (hcc : s.cooldown_counter = 0)
    (hgt : s.effective_patience < s.num_bad_epochs + 1) :
    step s lrs m none = Except.ok (true,
      { s with
        last_epoch := s.last_epoch + 1, num_bad_epochs := 0,
        cooldown_counter := s.cooldown, effective_patience := s.default_patience,
        last_lr := some (reduce_lr s.factor s.eps lrs s.min_lrs) },
      reduce_lr s.factor s.eps lrs s.min_lrs) := by
  rw [step_eq_ok (isBetterCheck_nonImproving hmode hni), stepCore_eq]
  have hcond : (if s.cooldown_counter > 0 then (0 : ℤ)
      else if (false : Bool) = true then 0 else s.num_bad_epochs + 1) >
        s.effective_patience := by
    rw [hcc]
    simpa using hgt
  rw [if_pos hcond]
  simp

theorem run_to_reduce :
    ∀ (k : ℕ) (s : AnnealState) (lrs : List ℚ) (ms : List PyFloat),
      (s.mode = "min" ∨ s.mode = "max") →
      s.cooldown_counter = 0 →
      ms.length = k + 1 →
      (∀ m ∈ ms, nonImproving s.mode s.best m) →
      s.num_bad_epochs + (k + 1 : ℤ) = s.effective_patience + 1 →
      ∃ s', runSteps s lrs (ms.map (fun m => (m, none))) =
          Except.ok (List.replicate k false ++ [true], s',
            reduce_lr s.factor s.eps lrs s.min_lrs) ∧
        s'.cooldown_counter = s.cooldown := by
  intro k
  induction k with
  | zero =>
    intro s lrs ms hmode hcc hlen hni hcount
    rw [List.length_eq_one] at hlen
    obtain ⟨m, rfl⟩ := hlen
    have hgt : s.effective_patience < s.num_bad_epochs + 1 := by omega
    have hstep := step_nonImproving_reduce s lrs m hmode (hni m (by simp)) hcc hgt
    refine ⟨{ s with
        last_epoch := s.last_epoch + 1, num_bad_epochs := 0,
        cooldown_counter := s.cooldown, effective_patience := s.default_patience,
        last_lr := some (reduce_lr s.factor s.eps lrs s.min_lrs) }, ?_, rfl⟩
    rw [List.map_cons, List.map_nil]
    exact runSteps_cons_eq hstep rfl
  | succ n ih =>
    intro s lrs ms hmode hcc hlen hni hcount
    obtain ⟨m, rest, rfl⟩ : ∃ m rest, ms = m :: rest := by
      cases ms with
      | nil => simp at hlen
      | cons a t => exact ⟨a, t, rfl⟩
    have hle : s.num_bad_epochs + 1 ≤ s.effective_patience := by
      simp at hlen
      omega
    have hstep := step_nonImproving_le s lrs m hmode (hni m (by simp)) hcc hle
    obtain ⟨s', hrun, hscc⟩ := ih
      { s with
        last_epoch := s.last_epoch + 1, num_bad_epochs := s.num_bad_epochs + 1,
        last_lr := some lrs }
      lrs rest hmode hcc (by simpa using hlen)
      (fun x hx => hni x (List.mem_cons_of_mem m hx))
      (by simp; omega)
    refine ⟨s', ?_, hscc⟩
    rw [List.map_cons, List.replicate_succ, List.cons_append]
    exact runSteps_cons_eq hstep hrun

theorem reduce_lr_get? (factor eps : ℚ) :
    ∀ (ls mls : List ℚ) (i : ℕ), i < ls.length → i < mls.length →
      (reduce_lr factor eps ls mls)[i]? =
        some (if ls.getD i 0 - max (ls.getD i 0 * factor) (mls.getD i 0) > eps
              then max (ls.getD i 0 * factor) (mls.getD i 0) else ls.getD i 0) := by
  intro ls
  induction ls with
  | nil => intro mls i h1 h2; simp at h1
  | cons a ls ih =>
    intro mls i h1 h2
    cases mls with
    | nil => simp at h2
    | cons ml mls =>
      cases i with
      | zero => simp [reduce_lr]
      | succ n =>
        simp only [reduce_lr, List.getElem?_cons_succ, List.getD_cons_succ]
        exact ih mls n (by simpa using h1) (by simpa using h2)

theorem reduce_lr_le (factor eps : ℚ) (heps : 0 ≤ eps) :
    ∀ (ls mls : List ℚ) (i : ℕ) (x y : ℚ), ls[i]? = some x →
      (reduce_lr factor eps ls mls)[i]? = some y → y ≤ x := by
  intro ls
  induction ls with
  | nil => intro mls i x y hx hy; simp at hx
  | cons a ls ih =>
    intro mls i x y hx hy
    cases mls with
    | nil =>
      rw [show reduce_lr factor eps (a :: ls) [] = a :: ls from rfl] at hy
      rw [hx] at hy
      injection hy with hy
      exact le_of_eq hy.symm
    | cons ml mls =>
      cases i with
      | zero =>
        rw [List.getElem?_cons_zero] at hx
        injection hx with hx
        subst hx
        simp only [reduce_lr, List.getElem?_cons_zero, Option.some.injEq] at hy
        split at hy
        next hcond => rw [← hy]; linarith [le_max_left (a * factor) ml]
        next hcond => exact le_of_eq hy.symm
      | succ n =>
        simp only [reduce_lr, List.getElem?_cons_succ] at hx hy
        exact ih mls n x y hx hy

theorem reduce_lr_floor (factor eps : ℚ) (heps : 0 ≤ eps) :
    ∀ (ls mls : List ℚ) (i : ℕ) (x ml : ℚ), ls[i]? = some x → mls[i]? = some ml →
      x ≤ ml → (reduce_lr factor eps ls mls)[i]? = some x := by
  intro ls
  induction ls with
  | nil => intro mls i x ml hx hml hle; simp at hx
  | cons a ls ih =>
    intro mls i x ml hx hml hle
    cases mls with
    | nil => simp at hml
    | cons ml0 mls =>
      cases i with
      | zero =>
        rw [List.getElem?_cons_zero] at hx hml
        injection hx with hx
        injection hml with hml
        subst hx
        subst hml
        simp only [reduce_lr, List.getElem?_cons_zero, Option.some.injEq]
        rw [if_neg]
        · linarith [le_max_right (a * factor) ml0]
      | succ n =>
        simp only [reduce_lr, List.getElem?_cons_succ] at hx hml ⊢
        exact ih mls n x ml hx hml hle

theorem isBetterCheck_tie (s : AnnealState) (a b : PyFloat)
    (hba : s.best_aux = some b) (ht : a.truthy = true)
    (haux : (s.aux_mode = "min" ∧ PyFloat.lt a b = true) ∨
            (s.aux_mode = "max" ∧ PyFloat.lt b a = true)) :
    isBetterCheck s s.best (some a) = Except.ok true := by
  have hirr := PyFloat.lt_irrefl s.best
  rcases haux with ⟨hm, hlt⟩ | ⟨hm, hlt⟩
  · unfold isBetterCheck
    simp [hirr, ht, hba, hm, hlt]
  · have hne : ¬ (("max" : String) = "min") := by decide
    unfold isBetterCheck
    simp [hirr, ht, hba, hm, hne, hlt]

theorem init_ok_inv {lrs0 : List ℚ} {mode aux_mode : String} {factor : ℚ}
    {patience extra : ℤ} {verbose : Bool} {cooldown : ℤ} {min_lr : MinLrArg} {eps : ℚ}
    {s0 : AnnealState}
    (h : init lrs0 mode aux_mode factor patience extra verbose cooldown min_lr eps =
      Except.ok s0) :
    ∃ mls mw, init_is_better mode = Except.ok mw ∧
      s0 = { factor := factor, min_lrs := mls, default_patience := patience,
             effective_patience := patience + extra, verbose := verbose,
             cooldown := cooldown, cooldown_counter := 0, mode := mode,
             aux_mode := aux_mode, best := mw, best_aux := none,
             num_bad_epochs := 0, mode_worse := mw, eps := eps,
             last_epoch := 0, last_lr := none } := by
  unfold init at h
  split at h
  · exact absurd h (by simp)
  · split at h
    · exact absurd h (by simp)
    · split at h
      · exact absurd h (by simp)
      · next mw heq =>
        injection h with h
        exact ⟨_, mw, heq, h.symm⟩

theorem init_is_better_ok {mode : String} {mw : PyFloat}
    (h : init_is_better mode = Except.ok mw) :
    (mode = "min" ∧ mw = PyFloat.inf) ∨ (mode = "max" ∧ mw = PyFloat.ninf) := by
  unfold init_is_better at h
  by_cases h1 : mode ≠ "min" ∧ mode ≠ "max"
  · rw [if_pos h1] at h
    exact absurd h (by simp)
  · rw [if_neg h1] at h
    by_cases h2 : mode = "min"
    · rw [if_pos h2] at h
      injection h with h
      exact Or.inl ⟨h2, h.symm⟩
    · rw [if_neg h2] at h
      injection h with h
      push_neg at h1
      exact Or.inr ⟨h1 h2, h.symm⟩

theorem runSteps_eff :
    ∀ (ms : List (PyFloat × Option PyFloat)) (s : AnnealState) (lrs : List ℚ)
      (rs : List Bool) (s' : AnnealState) (lrs' : List ℚ),
      runSteps s lrs ms = Except.ok (rs, s', lrs') →
      s'.effective_patience =
        (if rs.any id then s.default_patience else s.effective_patience) ∧
      s'.default_patience = s.default_patience := by
  intro ms
  induction ms with
  | nil =>
    intro s lrs rs s' lrs' h
    simp only [runSteps] at h
    injection h with h
    injection h with h1 h2
    injection h2 with h2 h3
    subst h1
    subst h2
    simp
  | cons p rest ih =>
    obtain ⟨m, aux⟩ := p
    intro s lrs rs s' lrs' h
    obtain ⟨r, s1, lrs1, rs1, hstep, hrun, rfl⟩ := runSteps_cons_inv h
    obtain ⟨ib, hib, hout⟩ := step_ok_inv hstep
    have heff : s1.effective_patience =
        (if r then s.default_patience else s.effective_patience) := by
      have hc := stepCore_eff s lrs m aux ib
      rw [← hout] at hc
      simpa using hc
    have hdef : s1.default_patience = s.default_patience := by
      have hc := (stepCore_preserved s lrs m aux ib).2.2.2.2.2.1
      rw [← hout] at hc
      simpa using hc
    obtain ⟨ih1, ih2⟩ := ih s1 lrs1 rs1 s' lrs' hrun
    constructor
    · rw [ih1, hdef, heff]
      cases r <;> simp [List.any_cons]
    · rw [ih2, hdef]

theorem runSteps_mode :
    ∀ (ms : List (PyFloat × Option PyFloat)) (s : AnnealState) (lrs : List ℚ)
      (rs : List Bool) (s' : AnnealState) (lrs' : List ℚ),
      runSteps s lrs ms = Except.ok (rs, s', lrs') →
      s'.mode = s.mode ∧ s'.mode_worse = s.mode_worse := by
  intro ms
  induction ms with
  | nil =>
    intro s lrs rs s' lrs' h
    simp only [runSteps] at h
    injection h with h
    injection h with h1 h2
    injection h2 with h2 h3
    subst h2
    exact ⟨rfl, rfl⟩
  | cons p rest ih =>
    obtain ⟨m, aux⟩ := p
    intro s lrs rs s' lrs' h
    obtain ⟨r, s1, lrs1, rs1, hstep, hrun, rfl⟩ := runSteps_cons_inv h
    obtain ⟨ib, hib, hout⟩ := step_ok_inv hstep
    have hm : s1.mode = s.mode := by
      have hc := (stepCore_preserved s lrs m aux ib).1
      rw [← hout] at hc
      simpa using hc
    have hw : s1.mode_worse = s.mode_worse := by
      have hc := (stepCore_preserved s lrs m aux ib).2.1
      rw [← hout] at hc
      simpa using hc
    obtain ⟨ih1, ih2⟩ := ih s1 lrs1 rs1 s' lrs' hrun
    exact ⟨ih1.trans hm, ih2.trans hw⟩

theorem reachable_invariant {s : AnnealState} (h : Reachable s) :
    (s.mode = "min" ∧ s.mode_worse = PyFloat.inf) ∨
    (s.mode = "max" ∧ s.mode_worse = PyFloat.ninf) := by
  obtain ⟨lrs0, mode, aux_mode, factor, patience, extra, verbose, cooldown, min_lr,
    eps, ms, s0, rs, lrs', hinit, hrun⟩ := h
  obtain ⟨mls, mw, hib, rfl⟩ := init_ok_inv hinit
  obtain ⟨hm, hw⟩ := runSteps_mode ms _ lrs0 rs s lrs' hrun
  rcases init_is_better_ok hib with ⟨h1, h2⟩ | ⟨h1, h2⟩
  · exact Or.inl ⟨by rw [hm]; exact h1, by rw [hw]; exact h2⟩
  · exact Or.inr ⟨by rw [hm]; exact h1, by rw [hw]; exact h2⟩

theorem load_state_dict_ok {mw : PyFloat} (t sd : AnnealState)
    (hib : init_is_better sd.mode = Except.ok mw) :
    load_state_dict t sd = Except.ok { sd with mode_worse := mw } := by
  unfold load_state_dict
  rw [hib]

theorem init_is_better_error {mode : String} {e : String}
    (h : init_is_better mode = Except.error e) : ¬ (mode = "min" ∨ mode = "max") := by
  unfold init_is_better at h
  by_cases h1 : mode ≠ "min" ∧ mode ≠ "max"
  · intro hc
    rcases hc with hc | hc
    · exact h1.1 hc
    · exact h1.2 hc
  · rw [if_neg h1] at h
    by_cases h2 : mode = "min"
    · rw [if_pos h2] at h
      exact absurd h (by simp)
    · rw [if_neg h2] at h
      exact absurd h (by simp)

theorem isBetterCheck_error_iff (s : AnnealState) (m : PyFloat) (aux : Option PyFloat) :
    (∃ e, isBetterCheck s m aux = Except.error e) ↔
      (∃ a, aux = some a ∧ m = s.best ∧ a.truthy = true ∧ s.best_aux = none ∧
        (s.aux_mode = "min" ∨ s.aux_mode = "max")) := by
  cases aux with
  | none => simp [isBetterCheck]
  | some a =>
    simp only [isBetterCheck]
    by_cases hc : m = s.best ∧ a.truthy = true
    · rw [if_pos hc]
      by_cases h1 : s.aux_mode = "min"
      · rw [if_pos h1]
        cases hba : s.best_aux with
        | none =>
          simp [hc.1, hc.2, h1]
          exact ⟨StepErr.typeErr, trivial⟩
        | some b => simp [hba, hc.1, hc.2]
      · rw [if_neg h1]
        by_cases h2 : s.aux_mode = "max"
        · rw [if_pos h2]
          cases hba : s.best_aux with
          | none =>
            simp [hc.1, hc.2, h2]
            exact ⟨StepErr.typeErr, trivial⟩
          | some b => simp [hba, hc.1, hc.2]
        · rw [if_neg h2]
          simp [hc.1, hc.2, h1, h2]
    · rw [if_neg hc]
      simp only [not_and] at hc
      simp
      intro a' ha' hm
      exact absurd ha' (hc a')

end AnnealOnPlateau

/-- C1: for every controller with cooldown 0 whose best value has been
established (no bad epochs pending), a run of `effective_patience + 1`
consecutive `step` calls with non-improving primary metrics returns `True`
exactly once — on the last call — and after that call each parameter
group's rate equals `max(old_lr * factor, min_lr)` unless
`old_lr - new_lr <= eps`, in which case the rate is left unchanged. -/
theorem c1_plateau_reduction (s : AnnealState) (lrs : List ℚ) (p : ℕ) (ms : List PyFloat)
    (hmode : s.mode = "min" ∨ s.mode = "max")
    (hp : s.effective_patience = (p : ℤ))
    (hbad : s.num_bad_epochs = 0)
    (hcd : s.cooldown = 0)
    (hcc : s.cooldown_counter = 0)
    (hlen : ms.length = p + 1)
    (hni : ∀ m ∈ ms, nonImproving s.mode s.best m) :
    ∃ s', AnnealOnPlateau.runSteps s lrs (ms.map (fun m => (m, none))) =
        Except.ok (List.replicate p false ++ [true], s',
          AnnealOnPlateau.reduce_lr s.factor s.eps lrs s.min_lrs) ∧
      s'.cooldown_counter = 0 ∧
      (∀ i : ℕ, i < lrs.length → i < s.min_lrs.length →
        (AnnealOnPlateau.reduce_lr s.factor s.eps lrs s.min_lrs)[i]? =
          some (if lrs.getD i 0 - max (lrs.getD i 0 * s.factor) (s.min_lrs.getD i 0) > s.eps
                then max (lrs.getD i 0 * s.factor) (s.min_lrs.getD i 0)
                else lrs.getD i 0)) := by
  obtain ⟨s', hrun, hscc⟩ :=
    AnnealOnPlateau.run_to_reduce p s lrs ms hmode hcc hlen hni (by omega)
  exact ⟨s', hrun, by rw [hscc, hcd],
    fun i h1 h2 => AnnealOnPlateau.reduce_lr_get? s.factor s.eps lrs s.min_lrs i h1 h2⟩

/-- Closed instance of C1: from `c1s` (best 1 established, effective
patience 1, cooldown 0), two non-improving metrics 2, 2 yield the result
sequence `[false, true]` and the reduced learning rates. -/
theorem c1_witness :
    ∃ s', AnnealOnPlateau.runSteps c1s [1]
        ([PyFloat.val 2, PyFloat.val 2].map (fun m => (m, none))) =
        Except.ok (List.replicate 1 false ++ [true], s',
          AnnealOnPlateau.reduce_lr c1s.factor c1s.eps [1] c1s.min_lrs) ∧
      s'.cooldown_counter = 0 ∧
      (∀ i : ℕ, i < ([1] : List ℚ).length → i < c1s.min_lrs.length →
        (AnnealOnPlateau.reduce_lr c1s.factor c1s.eps [1] c1s.min_lrs)[i]? =
          some (if ([1] : List ℚ).getD i 0 -
                  max (([1] : List ℚ).getD i 0 * c1s.factor) (c1s.min_lrs.getD i 0) >
                  c1s.eps
                then max (([1] : List ℚ).getD i 0 * c1s.factor) (c1s.min_lrs.getD i 0)
                else ([1] : List ℚ).getD i 0)) :=
  c1_plateau_reduction c1s [1] 1 [PyFloat.val 2, PyFloat.val 2]
    (Or.inl rfl) (by decide) (by decide) (by decide) (by decide) (by decide)
    (by decide)

/-- C2: a `step` call whose primary metric exactly equals `best`, with a
truthy auxiliary metric strictly better (under `aux_mode`) than the stored
`best_aux`, registers an improvement: `best` is re-confirmed, `best_aux`
is updated to the supplied auxiliary value, and `bad_epoch_count` resets
to 0. -/
theorem c2_aux_tie_break (s : AnnealState) (lrs : List ℚ) (a b : PyFloat)
    (hba : s.best_aux = some b) (ht : a.truthy = true)
    (haux : (s.aux_mode = "min" ∧ PyFloat.lt a b = true) ∨
            (s.aux_mode = "max" ∧ PyFloat.lt b a = true)) :
    ∃ r s' lrs', AnnealOnPlateau.step s lrs s.best (some a) = Except.ok (r, s', lrs') ∧
      s'.best = s.best ∧ s'.best_aux = some a ∧ s'.num_bad_epochs = 0 := by
  have hib := AnnealOnPlateau.isBetterCheck_tie s a b hba ht haux
  rw [AnnealOnPlateau.step_eq_ok hib, AnnealOnPlateau.stepCore_eq]
  by_cases h : (if s.cooldown_counter > 0 then (0 : ℤ)
      else if (true : Bool) = true then 0 else s.num_bad_epochs + 1) > s.effective_patience
  · rw [if_pos h]
    refine ⟨true, _, _, rfl, ?_, ?_, ?_⟩ <;> simp [ht]
  · rw [if_neg h]
    refine ⟨false, _, _, rfl, ?_, ?_, ?_⟩ <;> simp [ht]

/-- Closed instance of C2: from `c2s` (best 1, stored auxiliary 2, three
bad epochs pending), a tie at 1 with auxiliary 1 registers an improvement. -/
theorem c2_witness :
    ∃ r s' lrs', AnnealOnPlateau.step c2s [1] c2s.best (some (PyFloat.val 1)) =
        Except.ok (r, s', lrs') ∧
      s'.best = c2s.best ∧ s'.best_aux = some (PyFloat.val 1) ∧
      s'.num_bad_epochs = 0 :=
  c2_aux_tie_break c2s [1] (PyFloat.val 1) (PyFloat.val 2) (by decide) (by decide)
    (Or.inl (by decide))

/-- C3 counterexample: the claim says every `step` call entered with
`cooldown_remaining > 0` decrements the counter.  With the constructible
arguments `patience = -1`, `cooldown = 2`, the second call starts with
`cooldown_counter = 2`, yet a reduction fires during cooldown and resets
the counter back to `cooldown = 2` instead of leaving the decrement: the
call ends with `cooldown_counter = 2`, not 1.  (The bad-epoch part of the
claim does hold: the call still ends with `num_bad_epochs = 0`.) -/
theorem c3_cooldown_counterexample :
    AnnealOnPlateau.init [1] "min" "min" (1/10) (-1) 0 false 2 (MinLrArg.scalar 0)
        (1/100000000) = Except.ok c3s0 ∧
    AnnealOnPlateau.step c3s0 [1] (PyFloat.val 5) none = Except.ok (true, c3s1, [1/10]) ∧
    c3s1.cooldown_counter = 2 ∧
    AnnealOnPlateau.step c3s1 [1/10] (PyFloat.val 5) none =
      Except.ok (true, c3s2, [1/100]) ∧
    c3s2.cooldown_counter = 2 ∧
    ¬ c3s2.cooldown_counter = c3s1.cooldown_counter - 1 :=
  ⟨by decide, by decide, by decide, by decide, by decide, by decide⟩

/-- C3 amended: every `step` call entered with `cooldown_remaining > 0`
ends with `bad_epoch_count = 0` (cooldown suppression overrides the
bad-epoch increment); it additionally decrements `cooldown_remaining` and
returns `False` provided `effective_patience` is non-negative (when
`effective_patience < 0`, a reduction fires during cooldown and resets the
counter to `cooldown` instead). -/
theorem c3_cooldown_amended (s : AnnealState) (lrs : List ℚ) (m : PyFloat)
    (aux : Option PyFloat) (r : Bool) (s' : AnnealState) (lrs' : List ℚ)
    (hcc : 0 < s.cooldown_counter)
    (h : AnnealOnPlateau.step s lrs m aux = Except.ok (r, s', lrs')) :
    s'.num_bad_epochs = 0 ∧
    (0 ≤ s.effective_patience →
      r = false ∧ s'.cooldown_counter = s.cooldown_counter - 1) := by
  obtain ⟨ib, hib, hout⟩ := AnnealOnPlateau.step_ok_inv h
  rw [AnnealOnPlateau.stepCore_eq] at hout
  by_cases hred : (if s.cooldown_counter > 0 then (0 : ℤ)
      else if ib = true then 0 else s.num_bad_epochs + 1) > s.effective_patience
  · rw [if_pos hred] at hout
    injection hout with h1 h2
    injection h2 with h2 h3
    subst h1
    subst h2
    have hcond : (0 : ℤ) > s.effective_patience := by
      rw [if_pos hcc] at hred
      exact hred
    exact ⟨rfl, fun heff => absurd hcond (by omega)⟩
  · rw [if_neg hred] at hout
    injection hout with h1 h2
    injection h2 with h2 h3
    subst h1
    subst h2
    refine ⟨?_, fun _ => ⟨rfl, ?_⟩⟩
    · show (if s.cooldown_counter > 0 then (0 : ℤ)
          else if ib = true then 0 else s.num_bad_epochs + 1) = 0
      rw [if_pos hcc]
    · show (if s.cooldown_counter > 0 then s.cooldown_counter - 1
          else s.cooldown_counter) = s.cooldown_counter - 1
      rw [if_pos hcc]

/-- Closed instance of the amended C3: from `c3w` (in cooldown, patience
2), a non-improving call ends with `bad = 0` and the counter decremented. -/
theorem c3_witness :
    c3w1.num_bad_epochs = 0 ∧
    (0 ≤ c3w.effective_patience →
      false = false ∧ c3w1.cooldown_counter = c3w.cooldown_counter - 1) :=
  c3_cooldown_amended c3w [1] (PyFloat.val 5) none false c3w1 [1] (by decide) (by decide)

/-- C4: `effective_patience` equals `base_patience + initial_extra_patience`
at construction and keeps that value over any run in which no reduction
fires; as soon as any `step` of the run returned `True`, it equals
`base_patience`, and no later step restores the extra grant. -/
theorem c4_effective_patience
    (lrs0 : List ℚ) (mode aux_mode : String) (factor : ℚ) (patience extra : ℤ)
    (verbose : Bool) (cooldown : ℤ) (min_lr : MinLrArg) (eps : ℚ)
    (s0 : AnnealState) (ms : List (PyFloat × Option PyFloat))
    (rs : List Bool) (s' : AnnealState) (lrs' : List ℚ)
    (hinit : AnnealOnPlateau.init lrs0 mode aux_mode factor patience extra verbose
      cooldown min_lr eps = Except.ok s0)
    (hrun : AnnealOnPlateau.runSteps s0 lrs0 ms = Except.ok (rs, s', lrs')) :
    s0.effective_patience = patience + extra ∧
    s'.effective_patience = (if rs.any id then patience else patience + extra) := by
  obtain ⟨mls, mw, hib, rfl⟩ := AnnealOnPlateau.init_ok_inv hinit
  obtain ⟨h1, h2⟩ := AnnealOnPlateau.runSteps_eff ms _ lrs0 rs s' lrs' hrun
  exact ⟨rfl, h1⟩

/-- Closed instance of C4: constructing with patience 3 and extra patience
2 gives effective patience 5, and an empty run keeps it. -/
theorem c4_witness :
    c4s0.effective_patience = 3 + 2 ∧
    c4s0.effective_patience = (if ([] : List Bool).any id then 3 else 3 + 2) :=
  c4_effective_patience [1] "min" "min" (1/10) 3 2 false 0 (MinLrArg.scalar 0)
    (1/100000000) c4s0 [] [] c4s0 [1] (by decide) rfl

/-- C5: restoring an exported state (`load_state_dict` applied to the
result of `state_dict`) of any reachable controller succeeds, reproduces
the state exactly, and hence yields identical future behavior: the same
`step` results and the same parameter-group mutations on any subsequent
metric sequence.  The receiver `t` is arbitrary, since
`self.__dict__.update` overwrites every exported field. -/
theorem c5_state_round_trip (s t : AnnealState) (h : AnnealOnPlateau.Reachable s) :
    ∃ s', AnnealOnPlateau.load_state_dict t (AnnealOnPlateau.state_dict s) =
        Except.ok s' ∧ s' = s ∧
      ∀ (lrs : List ℚ) (ms : List (PyFloat × Option PyFloat)),
        AnnealOnPlateau.runSteps s' lrs ms = AnnealOnPlateau.runSteps s lrs ms := by
  rcases AnnealOnPlateau.reachable_invariant h with ⟨hm, hw⟩ | ⟨hm, hw⟩
  · have hib : AnnealOnPlateau.init_is_better
        (AnnealOnPlateau.state_dict s).mode = Except.ok PyFloat.inf := by
      unfold AnnealOnPlateau.state_dict
      rw [hm]
      decide
    have hs : ({ s with mode_worse := PyFloat.inf } : AnnealState) = s := by rw [← hw]
    refine ⟨s, ?_, rfl, fun lrs ms => rfl⟩
    rw [AnnealOnPlateau.load_state_dict_ok t (AnnealOnPlateau.state_dict s) hib]
    unfold AnnealOnPlateau.state_dict
    rw [hs]
  · have hib : AnnealOnPlateau.init_is_better
        (AnnealOnPlateau.state_dict s).mode = Except.ok PyFloat.ninf := by
      unfold AnnealOnPlateau.state_dict
      rw [hm]
      decide
    have hs : ({ s with mode_worse := PyFloat.ninf } : AnnealState) = s := by rw [← hw]
    refine ⟨s, ?_, rfl, fun lrs ms => rfl⟩
    rw [AnnealOnPlateau.load_state_dict_ok t (AnnealOnPlateau.state_dict s) hib]
    unfold AnnealOnPlateau.state_dict
    rw [hs]

/-- Closed instance of C5: the freshly constructed state `c5s0` round-trips
through `state_dict`/`load_state_dict`. -/
theorem c5_witness :
    ∃ s', AnnealOnPlateau.load_state_dict c5s0 (AnnealOnPlateau.state_dict c5s0) =
        Except.ok s' ∧ s' = c5s0 ∧
      ∀ (lrs : List ℚ) (ms : List (PyFloat × Option PyFloat)),
        AnnealOnPlateau.runSteps s' lrs ms = AnnealOnPlateau.runSteps c5s0 lrs ms :=
  c5_state_round_trip c5s0 c5s0
    ⟨[1], "min", "min", 1/10, 10, 0, false, 0, MinLrArg.scalar 0, 1/100000000,
      [], c5s0, [], [1], by decide, rfl⟩

namespace ReduceLRWDOnPlateau

theorem step_eq (is_better : PyFloat → PyFloat → Bool)
    (base_reduce_lr : List ℚ → List ℚ) (s : RLWDState) (groups : List ParamGroup)
    (metric : PyFloat) :
    step is_better base_reduce_lr s groups metric =
      (if (if s.cooldown_counter > 0 then (0 : ℤ)
           else if is_better metric s.best then 0 else s.num_bad_epochs + 1) >
            s.patience
       then
        (none,
          { s with
            last_epoch := s.last_epoch + 1,
            best := if is_better metric s.best then metric else s.best,
            num_bad_epochs := 0, cooldown_counter := s.cooldown },
          reduce_weight_decay s.factor s.eps s.min_lrs
            (applyLr (base_reduce_lr (groups.map ParamGroup.lr)) groups))
       else
        (none,
          { s with
            last_epoch := s.last_epoch + 1,
            best := if is_better metric s.best then metric else s.best,
            num_bad_epochs := if s.cooldown_counter > 0 then (0 : ℤ)
              else if is_better metric s.best then 0 else s.num_bad_epochs + 1,
            cooldown_counter := if s.cooldown_counter > 0 then s.cooldown_counter - 1
              else s.cooldown_counter },
          groups)) := rfl

theorem applyLr_weight_decay :
    ∀ (ls : List ℚ) (gs : List ParamGroup),
      (applyLr ls gs).map ParamGroup.weight_decay = gs.map ParamGroup.weight_decay := by
  intro ls
  induction ls with
  | nil => intro gs; cases gs <;> rfl
  | cons l ls ih =>
    intro gs
    cases gs with
    | nil => rfl
    | cons g gs => simp [applyLr, ih]

theorem reduce_weight_decay_get? (factor eps : ℚ) :
    ∀ (mls : List ℚ) (gs : List ParamGroup) (i : ℕ) (w ml : ℚ),
      (gs.map ParamGroup.weight_decay)[i]? = some w → mls[i]? = some ml →
      ((reduce_weight_decay factor eps mls gs).map ParamGroup.weight_decay)[i]? =
        some (if w ≠ 0 ∧ w - max (w * factor) ml > eps
              then max (w * factor) ml else w) := by
  intro mls
  induction mls with
  | nil => intro gs i w ml hw hml; simp at hml
  | cons ml0 mls ih =>
    intro gs i w ml hw hml
    cases gs with
    | nil => simp at hw
    | cons g gs =>
      cases i with
      | zero =>
        simp only [List.map_cons, List.getElem?_cons_zero, Option.some.injEq] at hw hml
        subst hw
        subst hml
        simp only [reduce_weight_decay, List.map_cons, List.getElem?_cons_zero,
          Option.some.injEq]
        by_cases h0 : g.weight_decay ≠ 0
        · by_cases hcond : g.weight_decay - max (g.weight_decay * factor) ml0 > eps
          · rw [if_pos h0, if_pos hcond, if_pos ⟨h0, hcond⟩]
          · rw [if_pos h0, if_neg hcond,
              if_neg (by intro hc; exact hcond hc.2)]
        · rw [if_neg h0, if_neg (by intro hc; exact h0 hc.1)]
      | succ n =>
        simp only [List.map_cons, List.getElem?_cons_succ] at hw hml
        simp only [reduce_weight_decay, List.map_cons, List.getElem?_cons_succ]
        exact ih gs n w ml hw hml

end ReduceLRWDOnPlateau

/-- C6 counterexample: the claim says construction fails exactly when an
invalid argument is supplied, listing factor outside (0,1) and negative
patience or cooldown among the invalid ones.  The constructor only checks
`factor >= 1.0`: with `factor = 0`, `patience = -3` and `cooldown = -2` —
all invalid per the claim — construction succeeds. -/
theorem c6_construction_counterexample :
    (AnnealOnPlateau.init [1] "min" "min" 0 (-3) 0 false (-2) (MinLrArg.scalar 0)
        (1/100000000)).isOk = true := by decide

/-- C6 amended: with a valid optimizer handle, construction fails exactly
when `factor >= 1.0`, when an explicit `min_lr` list has a length other
than the number of parameter groups, or when `mode` is neither "min" nor
"max"; a non-positive factor and negative patience or cooldown are
accepted without complaint. -/
theorem c6_construction_amended (lrs0 : List ℚ) (mode aux_mode : String) (factor : ℚ)
    (patience extra : ℤ) (verbose : Bool) (cooldown : ℤ) (min_lr : MinLrArg) (eps : ℚ) :
    (AnnealOnPlateau.init lrs0 mode aux_mode factor patience extra verbose cooldown
        min_lr eps).isOk = true ↔
      (factor < 1 ∧ (∀ qs, min_lr = MinLrArg.ofList qs → qs.length = lrs0.length) ∧
        (mode = "min" ∨ mode = "max")) := by
  unfold AnnealOnPlateau.init
  by_cases hf : factor ≥ 1
  · rw [if_pos hf]
    simp [Except.isOk, Except.toBool]
    intro hlt
    exact absurd hlt (not_lt.mpr hf)
  · rw [if_neg hf]
    have hflt : factor < 1 := lt_of_not_ge hf
    cases min_lr with
    | scalar q =>
      cases hib : AnnealOnPlateau.init_is_better mode with
      | error e =>
        simp [hib, Except.isOk, Except.toBool, hflt]
        have hni := AnnealOnPlateau.init_is_better_error hib
        push_neg at hni
        exact hni
      | ok mw =>
        simp [hib, Except.isOk, Except.toBool, hflt]
        rcases AnnealOnPlateau.init_is_better_ok hib with ⟨h1, -⟩ | ⟨h1, -⟩
        · exact Or.inl h1
        · exact Or.inr h1
    | ofList qs =>
      simp only
      by_cases hlen : qs.length ≠ lrs0.length
      · rw [if_pos hlen]
        simp [Except.isOk, Except.toBool]
        intro hlt hall
        exact absurd hall hlen
      · rw [if_neg hlen]
        push_neg at hlen
        cases hib : AnnealOnPlateau.init_is_better mode with
        | error e =>
          simp [hib, Except.isOk, Except.toBool, hflt, hlen]
          have hni := AnnealOnPlateau.init_is_better_error hib
          push_neg at hni
          exact hni
        | ok mw =>
          simp [hib, Except.isOk, Except.toBool, hflt, hlen]
          rcases AnnealOnPlateau.init_is_better_ok hib with ⟨h1, -⟩ | ⟨h1, -⟩
          · exact Or.inl h1
          · exact Or.inr h1

/-- Closed instance of the amended C6: a valid configuration constructs. -/
theorem c6_witness :
    (AnnealOnPlateau.init [1] "min" "min" (1/10) 10 0 false 0 (MinLrArg.scalar 0)
        (1/100000000)).isOk = true :=
  (c6_construction_amended [1] "min" "min" (1/10) 10 0 false 0 (MinLrArg.scalar 0)
    (1/100000000)).mpr ⟨by norm_num, by simp, Or.inl rfl⟩

/-- C7 counterexample: the claim says `step` never raises except for
non-coercible metric inputs.  From the reachable state `c7s0` (best
established at 5, `best_aux` still `None`), a tie at 5 with the truthy
auxiliary 3 reaches the comparison `3 < None`, a Python TypeError: the run
aborts even though both metrics are ordinary floats. -/
theorem c7_step_counterexample :
    AnnealOnPlateau.init [1] "min" "min" (1/10) 10 0 false 0 (MinLrArg.scalar 0)
        (1/100000000) = Except.ok c7s0 ∧
    AnnealOnPlateau.runSteps c7s0 [1]
        [(PyFloat.val 5, none), (PyFloat.val 5, some (PyFloat.val 3))] =
      Except.error StepErr.typeErr :=
  ⟨by decide, by decide⟩

/-- C7 amended: a `step` call on float inputs completes normally and
returns a boolean exactly unless the tie-break comparison against a
missing `best_aux` fires: primary metric equal to `best`, a truthy
auxiliary supplied, `best_aux` still `None`, and `aux_mode` one of
"min"/"max" (then Python raises TypeError). -/
theorem c7_step_amended (s : AnnealState) (lrs : List ℚ) (m : PyFloat)
    (aux : Option PyFloat) :
    (∃ r s' lrs', AnnealOnPlateau.step s lrs m aux = Except.ok (r, s', lrs')) ↔
      ¬ (∃ a, aux = some a ∧ m = s.best ∧ a.truthy = true ∧ s.best_aux = none ∧
          (s.aux_mode = "min" ∨ s.aux_mode = "max")) := by
  rw [← AnnealOnPlateau.isBetterCheck_error_iff s m aux]
  constructor
  · rintro ⟨r, s', lrs', hok⟩ ⟨e, herr⟩
    obtain ⟨ib, hib, -⟩ := AnnealOnPlateau.step_ok_inv hok
    rw [hib] at herr
    exact absurd herr (by simp)
  · intro hne
    cases hib : AnnealOnPlateau.isBetterCheck s m aux with
    | error e => exact absurd ⟨e, hib⟩ hne
    | ok ib =>
      exact ⟨(AnnealOnPlateau.stepCore s lrs m aux ib).1,
        (AnnealOnPlateau.stepCore s lrs m aux ib).2.1,
        (AnnealOnPlateau.stepCore s lrs m aux ib).2.2,
        by rw [AnnealOnPlateau.step_eq_ok hib]⟩

/-- Closed instance of the amended C7: a step with no auxiliary metric
completes normally. -/
theorem c7_witness :
    ∃ r s' lrs', AnnealOnPlateau.step c7s0 [1] (PyFloat.val 5) none =
      Except.ok (r, s', lrs') :=
  (c7_step_amended c7s0 [1] (PyFloat.val 5) none).mpr (by simp)

/-- C8 counterexample: the claim says the weight-decay variant "emits the
same reduced: bool result from step".  `ReduceLRWDOnPlateau.step` has no
return statement, so every call returns `None` — it emits no boolean at
all — while the corresponding `AnnealOnPlateau.step` call on the same
situation returns the boolean `False`.  (Its signature also takes no
auxiliary metric, so the tie-break part of the plateau decision cannot be
shared.) -/
theorem c8_variant_counterexample :
    (ReduceLRWDOnPlateau.step (fun a b => PyFloat.lt a b) (fun ls => ls) c8rs
        [{ lr := 1, weight_decay := 1/2 }] (PyFloat.val 5)).1 = none ∧
    AnnealOnPlateau.step c8as [1] (PyFloat.val 5) none =
      Except.ok (false, c8as1, [1]) :=
  ⟨by decide, by decide⟩

/-- C8 amended: `ReduceLRWDOnPlateau.step` returns `None` (no reduced
flag).  It runs the inherited plateau decision (the torch base class's
`is_better` with plain `patience`, no auxiliary tie-break), and exactly
when that decision fires it mutates the groups in the same call: learning
rates through the inherited `_reduce_lr`, and weight decay per group by
`new_wd = max(old_wd * factor, min_lrs[i])`, written only for groups with
non-zero weight decay and only when `old_wd - new_wd > eps`; the learning
rate application never touches the weight-decay field. -/
theorem c8_variant_amended (is_better : PyFloat → PyFloat → Bool)
    (base_reduce_lr : List ℚ → List ℚ) (s : RLWDState) (groups : List ParamGroup)
    (metric : PyFloat) :
    (ReduceLRWDOnPlateau.step is_better base_reduce_lr s groups metric).1 = none ∧
    ((¬ ((if s.cooldown_counter > 0 then (0 : ℤ)
          else if is_better metric s.best then 0 else s.num_bad_epochs + 1) >
            s.patience)) →
      (ReduceLRWDOnPlateau.step is_better base_reduce_lr s groups metric).2.2 =
        groups) ∧
    (((if s.cooldown_counter > 0 then (0 : ℤ)
          else if is_better metric s.best then 0 else s.num_bad_epochs + 1) >
            s.patience) →
      (ReduceLRWDOnPlateau.step is_better base_reduce_lr s groups metric).2.2 =
        ReduceLRWDOnPlateau.reduce_weight_decay s.factor s.eps s.min_lrs
          (ReduceLRWDOnPlateau.applyLr (base_reduce_lr (groups.map ParamGroup.lr))
            groups)) ∧
    (∀ (ls : List ℚ) (gs : List ParamGroup),
      (ReduceLRWDOnPlateau.applyLr ls gs).map ParamGroup.weight_decay =
        gs.map ParamGroup.weight_decay) ∧
    (∀ (mls : List ℚ) (gs : List ParamGroup) (i : ℕ) (w ml : ℚ),
      (gs.map ParamGroup.weight_decay)[i]? = some w → mls[i]? = some ml →
      ((ReduceLRWDOnPlateau.reduce_weight_decay s.factor s.eps mls gs).map
          ParamGroup.weight_decay)[i]? =
        some (if w ≠ 0 ∧ w - max (w * s.factor) ml > s.eps
              then max (w * s.factor) ml else w)) := by
  refine ⟨?_, ?_, ?_, ReduceLRWDOnPlateau.applyLr_weight_decay,
    ReduceLRWDOnPlateau.reduce_weight_decay_get? s.factor s.eps⟩
  · rw [ReduceLRWDOnPlateau.step_eq]
    by_cases h : (if s.cooldown_counter > 0 then (0 : ℤ)
        else if is_better metric s.best then 0 else s.num_bad_epochs + 1) > s.patience
    · rw [if_pos h]
    · rw [if_neg h]
  · intro h
    rw [ReduceLRWDOnPlateau.step_eq, if_neg h]
  · intro h
    rw [ReduceLRWDOnPlateau.step_eq, if_pos h]

/-- Closed instance of the amended C8 at a concrete state and group. -/
theorem c8_witness :
    (ReduceLRWDOnPlateau.step (fun a b => PyFloat.lt a b) (fun ls => ls) c8rs
        [{ lr := 1, weight_decay := 1/2 }] (PyFloat.val 5)).1 = none ∧
    ((¬ ((if c8rs.cooldown_counter > 0 then (0 : ℤ)
          else if PyFloat.lt (PyFloat.val 5) c8rs.best then 0
          else c8rs.num_bad_epochs + 1) > c8rs.patience)) →
      (ReduceLRWDOnPlateau.step (fun a b => PyFloat.lt a b) (fun ls => ls) c8rs
          [{ lr := 1, weight_decay := 1/2 }] (PyFloat.val 5)).2.2 =
        [{ lr := 1, weight_decay := 1/2 }]) ∧
    (((if c8rs.cooldown_counter > 0 then (0 : ℤ)
          else if PyFloat.lt (PyFloat.val 5) c8rs.best then 0
          else c8rs.num_bad_epochs + 1) > c8rs.patience) →
      (ReduceLRWDOnPlateau.step (fun a b => PyFloat.lt a b) (fun ls => ls) c8rs
          [{ lr := 1, weight_decay := 1/2 }] (PyFloat.val 5)).2.2 =
        ReduceLRWDOnPlateau.reduce_weight_decay c8rs.factor c8rs.eps c8rs.min_lrs
          (ReduceLRWDOnPlateau.applyLr
            (([{ lr := 1, weight_decay := 1/2 }] : List ParamGroup).map ParamGroup.lr)
            [{ lr := 1, weight_decay := 1/2 }])) ∧
    (∀ (ls : List ℚ) (gs : List ParamGroup),
      (ReduceLRWDOnPlateau.applyLr ls gs).map ParamGroup.weight_decay =
        gs.map ParamGroup.weight_decay) ∧
    (∀ (mls : List ℚ) (gs : List ParamGroup) (i : ℕ) (w ml : ℚ),
      (gs.map ParamGroup.weight_decay)[i]? = some w → mls[i]? = some ml →
      ((ReduceLRWDOnPlateau.reduce_weight_decay c8rs.factor c8rs.eps mls gs).map
          ParamGroup.weight_decay)[i]? =
        some (if w ≠ 0 ∧ w - max (w * c8rs.factor) ml > c8rs.eps
              then max (w * c8rs.factor) ml else w)) :=
  c8_variant_amended (fun a b => PyFloat.lt a b) (fun ls => ls) c8rs
    [{ lr := 1, weight_decay := 1/2 }] (PyFloat.val 5)

/-- C9: the exponential anneal schedule.  `get_lr` at `last_epoch = s - 1`
(so that `iteration = s`) equals `start_lr * (end_lr / start_lr) ^ (s /
total_steps)`; at iteration 0 the rate is exactly `start_lr`, at iteration
`total_steps` it is exactly `end_lr`, and the rate sequence is strictly
decreasing whenever `end_lr < start_lr`. -/
theorem c9_exp_anneal (start_lr end_lr : ℝ) (total : ℕ) (s : ℕ)
    (h0 : 0 < start_lr) (h1 : 0 < end_lr) (h2 : 0 < total) :
    ExpAnnealLR.get_lr end_lr total [start_lr] ((s : ℤ) - 1) =
        [start_lr * (end_lr / start_lr) ^ ((s : ℝ) / (total : ℝ))] ∧
    ExpAnnealLR.get_lr end_lr total [start_lr] ((0 : ℤ) - 1) = [start_lr] ∧
    ExpAnnealLR.get_lr end_lr total [start_lr] ((total : ℤ) - 1) = [end_lr] ∧
    (end_lr < start_lr → ∀ s2 : ℕ, s < s2 →
      start_lr * (end_lr / start_lr) ^ ((s2 : ℝ) / (total : ℝ)) <
        start_lr * (end_lr / start_lr) ^ ((s : ℝ) / (total : ℝ))) := by
  have htR : (0 : ℝ) < (total : ℝ) := by exact_mod_cast h2
  refine ⟨?_, ?_, ?_, ?_⟩
  · unfold ExpAnnealLR.get_lr
    simp only [List.map_cons, List.map_nil]
    have he : ((((s : ℤ) - 1 : ℤ) : ℝ) + 1) / (total : ℝ) = (s : ℝ) / (total : ℝ) := by
      push_cast
      ring
    rw [he]
  · unfold ExpAnnealLR.get_lr
    simp only [List.map_cons, List.map_nil]
    have he : ((((0 : ℤ) - 1 : ℤ) : ℝ) + 1) / (total : ℝ) = 0 := by
      push_cast
      ring
    rw [he, Real.rpow_zero, mul_one]
  · unfold ExpAnnealLR.get_lr
    simp only [List.map_cons, List.map_nil]
    have he : ((((total : ℤ) - 1 : ℤ) : ℝ) + 1) / (total : ℝ) = 1 := by
      push_cast
      field_simp
    rw [he, Real.rpow_one]
    congr 1
    field_simp
  · intro hlt s2 hs2
    have hq0 : 0 < end_lr / start_lr := div_pos h1 h0
    have hq1 : end_lr / start_lr < 1 := (div_lt_one h0).mpr hlt
    have hexp : (s : ℝ) / (total : ℝ) < (s2 : ℝ) / (total : ℝ) := by
      have hcast : (s : ℝ) < (s2 : ℝ) := by exact_mod_cast hs2
      gcongr
    exact mul_lt_mul_of_pos_left
      (Real.rpow_lt_rpow_of_exponent_gt hq0 hq1 hexp) h0

/-- Closed instance of C9 at `start_lr = 1`, `end_lr = 1/100`,
`total_steps = 100`, `s = 0`. -/
theorem c9_witness :
    ExpAnnealLR.get_lr (1/100 : ℝ) 100 [(1 : ℝ)] (((0 : ℕ) : ℤ) - 1) =
        [(1 : ℝ) * ((1/100 : ℝ) / (1 : ℝ)) ^ (((0 : ℕ) : ℝ) / ((100 : ℕ) : ℝ))] ∧
    ExpAnnealLR.get_lr (1/100 : ℝ) 100 [(1 : ℝ)] ((0 : ℤ) - 1) = [(1 : ℝ)] ∧
    ExpAnnealLR.get_lr (1/100 : ℝ) 100 [(1 : ℝ)] (((100 : ℕ) : ℤ) - 1) =
      [(1/100 : ℝ)] ∧
    ((1/100 : ℝ) < 1 → ∀ s2 : ℕ, 0 < s2 →
      (1 : ℝ) * ((1/100 : ℝ) / (1 : ℝ)) ^ ((s2 : ℝ) / ((100 : ℕ) : ℝ)) <
        (1 : ℝ) * ((1/100 : ℝ) / (1 : ℝ)) ^ (((0 : ℕ) : ℝ) / ((100 : ℕ) : ℝ))) :=
  c9_exp_anneal 1 (1/100) 100 0 (by norm_num) (by norm_num) (by norm_num)

/-- C10 counterexample: the claim says no `step` call ever raises a
group's learning rate and a rate at or below its floor is left unchanged.
With the constructible arguments `min_lr = 5` above the current rate 1 and
`eps = -10`, the write guard `old_lr - new_lr > eps` passes even though
`new_lr > old_lr`, and the reduction raises the rate from 1 to 5. -/
theorem c10_monotone_counterexample :
    AnnealOnPlateau.init [1] "min" "min" (1/10) 0 0 false 0 (MinLrArg.scalar 5)
        (-10) = Except.ok c10s0 ∧
    AnnealOnPlateau.step c10s0 [1] (PyFloat.val 5) none =
      Except.ok (false, c10s1, [1]) ∧
    AnnealOnPlateau.step c10s1 [1] (PyFloat.val 5) none =
      Except.ok (true, c10s2, [5]) ∧
    ((1 : ℚ) < 5) :=
  ⟨by decide, by decide, by decide, by norm_num⟩

/-- C10 amended: provided `eps >= 0` (the default is 1e-8), no `step` call
ever increases any group's learning rate — a write happens only when
`old_lr - new_lr > eps >= 0`, a strict decrease — and a group whose rate is
already at or below its floor is left unchanged. -/
theorem c10_monotone_amended (s : AnnealState) (lrs : List ℚ) (m : PyFloat)
    (aux : Option PyFloat) (r : Bool) (s' : AnnealState) (lrs' : List ℚ)
    (heps : 0 ≤ s.eps)
    (h : AnnealOnPlateau.step s lrs m aux = Except.ok (r, s', lrs')) :
    (∀ (i : ℕ) (x y : ℚ), lrs[i]? = some x → lrs'[i]? = some y → y ≤ x) ∧
    (∀ (i : ℕ) (x ml : ℚ), lrs[i]? = some x → s.min_lrs[i]? = some ml → x ≤ ml →
      lrs'[i]? = some x) := by
  obtain ⟨ib, hib, hout⟩ := AnnealOnPlateau.step_ok_inv h
  have hl : lrs' = lrs ∨
      lrs' = AnnealOnPlateau.reduce_lr s.factor s.eps lrs s.min_lrs := by
    have hc := AnnealOnPlateau.stepCore_lrs s lrs m aux ib
    rw [← hout] at hc
    simpa using hc
  rcases hl with rfl | rfl
  · refine ⟨fun i x y hx hy => ?_, fun i x ml hx hml hle => hx⟩
    rw [hx] at hy
    injection hy with hy
    exact le_of_eq hy.symm
  · exact ⟨fun i x y hx hy =>
        AnnealOnPlateau.reduce_lr_le s.factor s.eps heps lrs s.min_lrs i x y hx hy,
      fun i x ml hx hml hle =>
        AnnealOnPlateau.reduce_lr_floor s.factor s.eps heps lrs s.min_lrs i x ml hx
          hml hle⟩

/-- Closed instance of the amended C10: an ordinary improving step never
moves the rate. -/
theorem c10_witness :
    (∀ (i : ℕ) (x y : ℚ), ([1] : List ℚ)[i]? = some x →
      ([1] : List ℚ)[i]? = some y → y ≤ x) ∧
    (∀ (i : ℕ) (x ml : ℚ), ([1] : List ℚ)[i]? = some x →
      c10w0.min_lrs[i]? = some ml → x ≤ ml → ([1] : List ℚ)[i]? = some x) :=
  c10_monotone_amended c10w0 [1] (PyFloat.val 5) none false c10w1 [1] (by decide)
    (by decide)

end RatDecide
